import Mathlib

/-!
Verification of the `entrolytics/api-client` request engine (`src/client.ts`).

The development shallowly embeds the core `ApiClient` class: configuration
resolution (constructor), authentication-header derivation (`getAuthHeaders`,
`createShareToken`), URL construction (`buildUrl`), and the retrying request
loop (`request`) together with its verb helpers.  JavaScript values that the
engine inspects (parsed JSON bodies, query-parameter values) are embedded as
inductive types; machine nondeterminism (the transport, the clock) is passed
in explicitly.  Strings are Lean `String`s, statuses are `Nat`.
-/

set_option autoImplicit false

namespace Entrolytics

/-- Embedded JSON value, as produced by `response.json()` or accepted as a
request body (`JSON.stringify`-serializable values). -/
inductive JsonVal where
  | jnull
  | jbool (b : Bool)
  | jnum (n : Int)
  | jstr (s : String)
  | jarr (xs : List JsonVal)
  | jobj (fields : List (String × JsonVal))

/-- JavaScript truthiness of an embedded JSON value (`if (body)`):
`null`, `false`, `0` and `""` are falsy; objects and arrays are truthy. -/
def jsTruthy : JsonVal → Bool
  | JsonVal.jnull => false
  | JsonVal.jbool b => b
  | JsonVal.jnum n => n != 0
  | JsonVal.jstr s => s != ""
  | JsonVal.jarr _ => true
  | JsonVal.jobj _ => true

/-- Property access `data.k` on a parsed JSON value: a field of an object,
`undefined` (here `none`) on anything else. -/
def getField : JsonVal → String → Option JsonVal
  | JsonVal.jobj fields, k => (fields.find? (fun p => p.1 == k)).map (fun p => p.2)
  | _, _ => none

/-- `typeof data.k === 'string' ? data.k : undefined`. -/
def getStrField (v : JsonVal) (k : String) : Option String :=
  match getField v k with
  | some (JsonVal.jstr s) => some s
  | _ => none

/-- Lower-case hexadecimal digit. -/
def hexDigit (n : Nat) : Char :=
  "0123456789abcdef".toList.getD n '0'

/-- Four-digit lower-case hex, as in JSON `\uXXXX` escapes. -/
def hex4 (n : Nat) : String :=
  String.mk [hexDigit (n / 4096 % 16), hexDigit (n / 256 % 16),
             hexDigit (n / 16 % 16), hexDigit (n % 16)]

/-- `JSON.stringify` escaping of a single character inside a string literal. -/
def jsonEscapeChar (ch : Char) : String :=
  if ch = '"' then "\\\""
  else if ch = '\\' then "\\\\"
  else if ch = '\x08' then "\\b"
  else if ch = '\x0c' then "\\f"
  else if ch = '\n' then "\\n"
  else if ch = '\r' then "\\r"
  else if ch = '\t' then "\\t"
  else if ch.toNat < 32 then "\\u" ++ hex4 ch.toNat
  else String.singleton ch

/-- `JSON.stringify` escaping of the characters of a string literal. -/
def jsonEscapeStr (s : String) : String :=
  s.toList.foldl (fun acc ch => acc ++ jsonEscapeChar ch) ""

mutual

/-- `JSON.stringify` on embedded JSON values. -/
def jsonStringify : JsonVal → String
  | JsonVal.jnull => "null"
  | JsonVal.jbool true => "true"
  | JsonVal.jbool false => "false"
  | JsonVal.jnum n => toString n
  | JsonVal.jstr s => "\"" ++ jsonEscapeStr s ++ "\""
  | JsonVal.jarr xs => "[" ++ jsonStringifyList xs ++ "]"
  | JsonVal.jobj fs => "\x7b" ++ jsonStringifyFields fs ++ "\x7d"

/-- Comma-separated serialization of array elements. -/
def jsonStringifyList : List JsonVal → String
  | [] => ""
  | [x] => jsonStringify x
  | x :: y :: xs => jsonStringify x ++ "," ++ jsonStringifyList (y :: xs)

/-- Comma-separated serialization of object fields. -/
def jsonStringifyFields : List (String × JsonVal) → String
  | [] => ""
  | [(k, v)] => "\"" ++ jsonEscapeStr k ++ "\":" ++ jsonStringify v
  | (k, v) :: f :: fs =>
      "\"" ++ jsonEscapeStr k ++ "\":" ++ jsonStringify v ++ "," ++
        jsonStringifyFields (f :: fs)

end

/-- Standard base64 alphabet. -/
def base64Chars : List Char :=
  "ABCDEFGHIJKLMNOPQRSTUVWXYZabcdefghijklmnopqrstuvwxyz0123456789+/".toList

/-- The `n`-th base64 alphabet character. -/
def b64Char (n : Nat) : Char := base64Chars.getD n 'A'

/-- Base64 encoding of a byte sequence (`Buffer.from(s).toString('base64')`
/ `btoa`), with `=` padding. -/
def base64Encode : List Nat → String
  | [] => ""
  | [a] => String.mk [b64Char (a / 4), b64Char (a % 4 * 16), '=', '=']
  | [a, b] => String.mk [b64Char (a / 4), b64Char (a % 4 * 16 + b / 16),
                         b64Char (b % 16 * 4), '=']
  | a :: b :: c :: rest =>
      String.mk [b64Char (a / 4), b64Char (a % 4 * 16 + b / 16),
                 b64Char (b % 16 * 4 + c / 64), b64Char (c % 64)] ++
        base64Encode rest

/-- UTF-8 encoding of one Unicode code point. -/
def utf8EncodeChar (n : Nat) : List Nat :=
  if n < 0x80 then [n]
  else if n < 0x800 then [0xc0 + n / 64, 0x80 + n % 64]
  else if n < 0x10000 then [0xe0 + n / 4096, 0x80 + n / 64 % 64, 0x80 + n % 64]
  else [0xf0 + n / 262144, 0x80 + n / 4096 % 64, 0x80 + n / 64 % 64, 0x80 + n % 64]

/-- UTF-8 bytes of a string, as naturals. -/
def strBytes (s : String) : List Nat :=
  (s.toList.map (fun ch => utf8EncodeChar ch.toNat)).flatten

/-- JavaScript truthiness for a `string | undefined` value: `undefined` and
`""` are falsy. -/
def truthy : Option String → Bool
  | none => false
  | some s => s != ""

/-- JavaScript `a || b` on `string | undefined` values: keep `a` when it is
truthy, otherwise evaluate to `b`. -/
def jsOr (a b : Option String) : Option String :=
  match a with
  | some s => if s = "" then b else some s
  | none => b

/-- `ClientConfig` (src/client.ts lines 3–20), restricted to the fields the
engine reads.  `none` models an omitted (`undefined`) field; the transport
function is supplied separately at each call in this embedding. -/
structure ClientConfig where
  endpoint : Option String := none
  bearerToken : Option String := none
  apiKey : Option String := none
  userId : Option String := none
  secret : Option String := none
  retries : Option Nat := none
  retryDelay : Option Nat := none
  deriving Repr, DecidableEq

/-- The resolved, constructed `ApiClient` state (its private fields). -/
structure ApiClient where
  endpoint : String
  bearerToken : Option String
  apiKey : Option String
  userId : Option String
  secret : Option String
  retries : Nat
  retryDelay : Nat
  deriving Repr, DecidableEq

/-- The constructor's thrown configuration error message. -/
def endpointRequiredMsg : String :=
  "Entrolytics API endpoint is required. Set ENTROLYTICS_API_ENDPOINT or pass endpoint in config."

/-- `ApiClient` constructor (src/client.ts lines 44–67).  `env` is the
ambient environment lookup (`getEnv`); an unavailable environment mechanism
is the constant-`none` function.  Each credential resolves as
`config.field || getEnv(NAME)`; a missing endpoint throws. -/
def mkClient (config : ClientConfig) (env : String → Option String) :
    Except String ApiClient :=
  let endpoint :=
    match jsOr config.endpoint (env "ENTROLYTICS_API_ENDPOINT") with
    | some s => s
    | none => ""
  let c : ApiClient :=
    { endpoint := endpoint
      bearerToken := jsOr config.bearerToken (env "ENTROLYTICS_BEARER_TOKEN")
      apiKey := jsOr config.apiKey (env "ENTROLYTICS_API_KEY")
      userId := jsOr config.userId (env "ENTROLYTICS_USER_ID")
      secret := jsOr config.secret (env "ENTROLYTICS_SECRET")
      retries := config.retries.getD 3
      retryDelay := config.retryDelay.getD 1000 }
  if endpoint = "" then Except.error endpointRequiredMsg
  else Except.ok c

/-- `setBearerToken` (src/client.ts lines 72–74): overwrite the mutable
bearer-token field with the given string. -/
def ApiClient.setBearerToken (c : ApiClient) (token : String) : ApiClient :=
  { c with bearerToken := some token }

/-- `createShareToken` (src/client.ts lines 101–121): requires both legacy
fields, then base64-encodes the JSON payload
`{ userId, timestamp: Date.now() }`.  `now` stands for `Date.now()`. -/
def ApiClient.createShareToken (c : ApiClient) (now : Nat) :
    Except String String :=
  if !truthy c.userId || !truthy c.secret then
    Except.error "userId and secret are required for self-hosted authentication"
  else
    Except.ok (base64Encode (strBytes (jsonStringify
      (JsonVal.jobj [("userId", JsonVal.jstr (c.userId.getD "")),
                     ("timestamp", JsonVal.jnum (Int.ofNat now))]))))

/-- `getAuthHeaders` (src/client.ts lines 80–95): strict priority
bearer > apiKey > legacy pair, evaluated by JavaScript truthiness.  The
`Except.error` arm of the share-token call is unreachable because the legacy
branch's guard coincides with `createShareToken`'s own check (see
`createShareToken_ok_under_guard`). -/
def ApiClient.getAuthHeaders (c : ApiClient) (now : Nat) :
    List (String × String) :=
  if truthy c.bearerToken then
    [("Authorization", "Bearer " ++ c.bearerToken.getD "")]
  else if truthy c.apiKey then
    [("x-entrolytics-api-key", c.apiKey.getD "")]
  else if truthy c.userId && truthy c.secret then
    match c.createShareToken now with
    | Except.ok t => [("x-entrolytics-share-token", t)]
    | Except.error _ => []
  else []

theorem createShareToken_ok_under_guard (c : ApiClient) (now : Nat)
    (h : (truthy c.userId && truthy c.secret) = true) :
    ∃ t, c.createShareToken now = Except.ok t := by
  rcases Bool.and_eq_true_iff.mp h with ⟨h1, h2⟩
  unfold ApiClient.createShareToken
  simp [h1, h2]

/-- A query-parameter value (`string | number | boolean | undefined`).
Numbers are restricted to integers; none of the engine's behavior under
verification depends on fractional formatting. -/
inductive ParamVal where
  | pstr (s : String)
  | pnum (n : Int)
  | pbool (b : Bool)
  | undef
  deriving Repr, DecidableEq

/-- Is this the `undefined` sentinel? -/
def isUndef : ParamVal → Bool
  | ParamVal.undef => true
  | _ => false

/-- JavaScript `String(value)` coercion of a parameter value. -/
def paramToString : ParamVal → String
  | ParamVal.pstr s => s
  | ParamVal.pnum n => toString n
  | ParamVal.pbool true => "true"
  | ParamVal.pbool false => "false"
  | ParamVal.undef => "undefined"

/-- `URLSearchParams.set`: replace the value of the first entry with this
key, drop any later entries with the same key, or append when absent. -/
def setParam : List (String × String) → String → String → List (String × String)
  | [], k, v => [(k, v)]
  | (k', v') :: rest, k, v =>
      if k' = k then (k, v) :: rest.filter (fun p => !(p.1 == k))
      else (k', v') :: setParam rest k v

/-- `URLSearchParams.get`: value of the first entry with this key. -/
def qlookup (q : List (String × String)) (k : String) : Option String :=
  (q.find? (fun p => p.1 == k)).map (fun p => p.2)

/-- One iteration of `buildUrl`'s `Object.entries(params).forEach`: skip
`undefined` values, otherwise `searchParams.set(key, String(value))`. -/
def stepParam (q : List (String × String)) (p : String × ParamVal) :
    List (String × String) :=
  if isUndef p.2 then q else setParam q p.1 (paramToString p.2)

/-- The whole `forEach` loop of `buildUrl` over the parameter entries. -/
def applyParams (q : List (String × String))
    (ps : List (String × ParamVal)) : List (String × String) :=
  ps.foldl stepParam q

/-- The last non-`undefined` value written for key `k` in the entry list. -/
def lastDefinedVal : List (String × ParamVal) → String → Option ParamVal
  | [], _ => none
  | p :: ps, k =>
      match lastDefinedVal ps k with
      | some v => some v
      | none => if p.1 == k && !isUndef p.2 then some p.2 else none

/-- A parsed WHATWG URL, restricted to the hierarchical
`scheme://host/path?query` form this model supports. -/
structure UrlParts where
  scheme : String
  host : String
  pathName : String
  query : List (String × String)
  deriving Repr, DecidableEq

/-- Split a character list at every occurrence of `sep`.  Always returns a
nonempty list of groups (the char-level analogue of `String.splitOn`,
restated structurally so concrete inputs evaluate in the kernel). -/
def splitChar (sep : Char) : List Char → List (List Char)
  | [] => [[]]
  | ch :: rest =>
      let r := splitChar sep rest
      if ch = sep then [] :: r
      else
        match r with
        | [] => [[ch]]
        | g :: gs => (ch :: g) :: gs

/-- Join character groups with a separator (inverse of `splitChar`). -/
def joinChar (sep : Char) : List (List Char) → List Char
  | [] => []
  | [g] => g
  | g :: h :: gs => g ++ sep :: joinChar sep (h :: gs)

/-- Does the second list start with the first? -/
def startsWithL : List Char → List Char → Bool
  | [], _ => true
  | _ :: _, [] => false
  | p :: ps, x :: xs => p = x && startsWithL ps xs

/-- A valid URL scheme: a letter followed by letters, digits, `+`, `-`, `.`. -/
def validScheme : List Char → Bool
  | [] => false
  | ch :: rest =>
      ch.isAlpha && rest.all (fun d => d.isAlphanum || d = '+' || d = '-' || d = '.')

/-- Hosts the hierarchical model tracks: nonempty, alphanumeric with `.`
and `-` (other authority forms answer `none`, see `parseAbsoluteUrl`). -/
def validHost (host : List Char) : Bool :=
  !host.isEmpty && host.all (fun ch => ch.isAlphanum || ch = '.' || ch = '-')

/-- Parse a raw query string into its key/value pairs (percent-decoding is
not modelled; entries are taken verbatim). -/
def parseQueryString (qs : List Char) : List (String × String) :=
  (splitChar '&' qs).filterMap (fun piece =>
    match piece with
    | [] => none
    | _ =>
        match splitChar '=' piece with
        | [] => none
        | [k] => some (String.mk k, "")
        | k :: vs => some (String.mk k, String.mk (joinChar '=' vs)))

/-- Split `path?query`, refusing inputs with several `?` (conservative: the
model answers `none` where it does not track `new URL` faithfully). -/
def splitQuery (s : List Char) : Option (List Char × List Char) :=
  match splitChar '?' s with
  | [p] => some (p, [])
  | [p, qs] => some (p, qs)
  | _ => none

/-- Parse an absolute `scheme://host[/path][?query]` URL; `none` both for
strings `new URL` rejects (no scheme, empty host) and for forms outside
this model's fragment (opaque paths, userinfo/ports, fancy hosts). -/
def parseAbsoluteUrl (s : String) : Option UrlParts :=
  let cs := (splitChar '#' s.toList).headD []
  match splitChar ':' cs with
  | schemePart :: r1 :: rest =>
      if validScheme schemePart then
        let tail := joinChar ':' (r1 :: rest)
        if startsWithL ['/', '/'] tail then
          match splitQuery (tail.drop 2) with
          | none => none
          | some (hostPath, qs) =>
              match splitChar '/' hostPath with
              | [] => none
              | host :: segs =>
                  if validHost host then
                    some
                      { scheme := String.mk schemePart
                        host := String.mk host
                        pathName :=
                          if segs = [] then "/"
                          else String.mk ('/' :: joinChar '/' segs)
                        query := parseQueryString qs }
                  else none
        else none
      else none
  | _ => none

/-- Does the string start with a `scheme:` prefix (an absolute-URL form
that, when `parseAbsoluteUrl` fails on it, the model refuses to resolve
as a relative path)? -/
def hasSchemeColon (s : String) : Bool :=
  match splitChar ':' s.toList with
  | [_] => false
  | pre :: _ => validScheme pre
  | [] => false

/-- The directory part of a path, up to and including the last `/`. -/
def dirOf (p : List Char) : List Char :=
  joinChar '/' (splitChar '/' p).dropLast ++ ['/']

/-- `new URL(path, base)`: absolute URLs are taken alone; otherwise the
path is resolved against the parsed base.  `none` models both a thrown
`TypeError: Invalid URL` and inputs outside the supported fragment. -/
def resolveUrl (path base : String) : Option UrlParts :=
  match parseAbsoluteUrl path with
  | some u => some u
  | none =>
      if startsWithL ['/', '/'] path.toList then none
      else if hasSchemeColon path then none
      else
        match parseAbsoluteUrl base with
        | none => none
        | some b =>
            if path = "" then some b
            else
              let stripped := (splitChar '#' path.toList).headD []
              match splitQuery stripped with
              | none => none
              | some (p, qs) =>
                  if p.isEmpty then none
                  else if startsWithL ['/'] p then
                    some { scheme := b.scheme, host := b.host,
                           pathName := String.mk p, query := parseQueryString qs }
                  else
                    some { scheme := b.scheme, host := b.host,
                           pathName := String.mk (dirOf b.pathName.toList ++ p),
                           query := parseQueryString qs }

/-- `buildUrl` before serialization (src/client.ts lines 140–155):
resolve the path against the endpoint, then run the parameter loop. -/
def ApiClient.buildUrlParsed (c : ApiClient) (path : String)
    (params : Option (List (String × ParamVal))) : Option UrlParts :=
  (resolveUrl path c.endpoint).map
    (fun u => { u with query := applyParams u.query (params.getD []) })

/-- Bytes kept verbatim by `application/x-www-form-urlencoded` encoding. -/
def isFormSafe (b : Nat) : Bool :=
  (0x30 ≤ b && b ≤ 0x39) || (0x41 ≤ b && b ≤ 0x5a) || (0x61 ≤ b && b ≤ 0x7a) ||
    b = 0x2a || b = 0x2d || b = 0x2e || b = 0x5f

/-- Upper-case hexadecimal digit (percent-escapes). -/
def hexDigitUpper (n : Nat) : Char :=
  "0123456789ABCDEF".toList.getD n '0'

/-- Percent-escape of one byte. -/
def percentByte (b : Nat) : String :=
  String.mk ['%', hexDigitUpper (b / 16 % 16), hexDigitUpper (b % 16)]

/-- `application/x-www-form-urlencoded` encoding of a string. -/
def formEncode (s : String) : String :=
  (strBytes s).foldl
    (fun acc b =>
      acc ++ (if b = 0x20 then "+"
              else if isFormSafe b then String.singleton (Char.ofNat b)
              else percentByte b)) ""

/-- `URLSearchParams.toString`. -/
def serializeQuery (q : List (String × String)) : String :=
  String.intercalate "&" (q.map (fun p => formEncode p.1 ++ "=" ++ formEncode p.2))

/-- `URL.toString` on the supported fragment. -/
def urlToString (u : UrlParts) : String :=
  u.scheme ++ "://" ++ u.host ++ u.pathName ++
    (if u.query = [] then "" else "?" ++ serializeQuery u.query)

/-- `buildUrl` (src/client.ts lines 140–155), returning the serialized URL
string as the source does, or `none` where `new URL` throws. -/
def ApiClient.buildUrl (c : ApiClient) (path : String)
    (params : Option (List (String × ParamVal))) : Option String :=
  (c.buildUrlParsed path params).map urlToString

/-- Setting a key in a JavaScript object literal: overwrite in place when
present (keeping key order), else append. -/
def recSet (r : List (String × String)) (k v : String) : List (String × String) :=
  if r.any (fun p => p.1 == k) then
    r.map (fun p => if p.1 == k then (k, v) else p)
  else r ++ [(k, v)]

/-- Object spread `{ ...r, ...s }`: later keys overwrite earlier ones. -/
def recMerge (r s : List (String × String)) : List (String × String) :=
  s.foldl (fun acc p => recSet acc p.1 p.2) r

/-- `RequestOptions` (src/client.ts lines 24–29). -/
structure RequestOptions where
  method : Option String := none
  body : Option JsonVal := none
  params : Option (List (String × ParamVal)) := none
  headers : Option (List (String × String)) := none

/-- The headers object built for each attempt (src/client.ts lines 170–174):
content type, then auth headers, then caller overrides, later spreads
winning. -/
def requestHeaders (c : ApiClient) (now : Nat)
    (overrides : List (String × String)) : List (String × String) :=
  recMerge (recMerge [("Content-Type", "application/json")] (c.getAuthHeaders now))
    overrides

/-- `body` attachment (src/client.ts lines 177–179): `if (body)` — the body
is serialized and attached only when it is truthy. -/
def sentBody (b : Option JsonVal) : Option String :=
  match b with
  | some v => if jsTruthy v then some (jsonStringify v) else none
  | none => none

/-- The `RequestInit` value passed to the transport on one attempt. -/
structure FetchOptions where
  method : String
  headers : List (String × String)
  body : Option String
  deriving DecidableEq

/-- What one transport attempt produces: an HTTP response whose body either
parses as JSON (`some v`) or fails to parse (`none`), or a thrown value —
`some m` for an `Error` carrying message `m`, `none` for a non-`Error`. -/
inductive FetchOutcome where
  | resp (status : Nat) (body : Option JsonVal)
  | thrown (msg : Option String)

/-- `ApiResponse<T>` (src/types/index.ts lines 5–10). -/
structure ApiResponse where
  ok : Bool
  status : Nat
  data : Option JsonVal
  error : Option String

/-- `isRetryable` (src/client.ts lines 133–135). -/
def isRetryable (status : Nat) : Bool :=
  status == 0 || status == 429 || decide (500 ≤ status)

/-- `Response.ok` per the Fetch standard: status in the range 200–299. -/
def respOk (status : Nat) : Bool :=
  decide (200 ≤ status) && decide (status < 300)

/-- How one attempt's try-block ends: a value returned to the caller, or a
candidate failure after which the loop may retry. -/
inductive StepResult where
  | done (r : ApiResponse)
  | retryable (r : ApiResponse)

/-- The error-message derivation of the non-ok branch
(src/client.ts lines 186–191). -/
def errorMessage (data : JsonVal) (status : Nat) : String :=
  match getStrField data "error" with
  | some e => e
  | none =>
      match getStrField data "message" with
      | some m => m
      | none => "HTTP " ++ toString status

/-- The body of one iteration of the attempt loop
(src/client.ts lines 181–226), as a function of the transport outcome:
parse failure becomes `{}`; an ok status returns success; a failing status
yields the derived error envelope, retryable exactly per `isRetryable`; a
thrown value yields the status-0 envelope and is always retryable. -/
def attemptOutcome : FetchOutcome → StepResult
  | FetchOutcome.resp status body =>
      let data := body.getD (JsonVal.jobj [])
      if respOk status then
        StepResult.done { ok := true, status := status, data := some data, error := none }
      else
        let le : ApiResponse :=
          { ok := false, status := status, data := none,
            error := some (errorMessage data status) }
        if isRetryable status then StepResult.retryable le else StepResult.done le
  | FetchOutcome.thrown msg =>
      StepResult.retryable
        { ok := false, status := 0, data := none,
          error := some (msg.getD "Network error") }

/-- Observable trace of one `request` call: the fetch options passed to the
transport on each attempt, the backoff delays slept, the number of
attempts, and the resolved envelope. -/
structure AttemptTrace where
  calls : List FetchOptions
  delays : List Nat
  attempts : Nat
  result : ApiResponse

/-- The fetch options built on one attempt (headers are recomputed fresh
each iteration; `now` stands for the ambient clock). -/
def mkFetchOptions (c : ApiClient) (opts : RequestOptions) (now : Nat) :
    FetchOptions :=
  { method := opts.method.getD "GET"
    headers := requestHeaders c now (opts.headers.getD [])
    body := sentBody opts.body }

/-- The attempt loop of `request` (src/client.ts lines 166–235).
`remaining` is `retries - attempt`, so `remaining > 0` is the source's
`attempt < this.retries`.  When the loop's final iteration ends in a
candidate failure, the source returns `lastError ?? <fallback>`; since the
loop always runs at least once, that equals the final candidate, which is
what the `remaining = 0` case returns. -/
def requestGo (c : ApiClient) (tr : Nat → FetchOptions → FetchOutcome)
    (opts : RequestOptions) (now : Nat) : Nat → Nat → AttemptTrace
  | 0, attempt =>
      let fo := mkFetchOptions c opts now
      { calls := [fo], delays := [], attempts := 1,
        result :=
          match attemptOutcome (tr attempt fo) with
          | StepResult.done r => r
          | StepResult.retryable r => r }
  | r + 1, attempt =>
      let fo := mkFetchOptions c opts now
      match attemptOutcome (tr attempt fo) with
      | StepResult.done res =>
          { calls := [fo], delays := [], attempts := 1, result := res }
      | StepResult.retryable _ =>
          let rest := requestGo c tr opts now r (attempt + 1)
          { calls := fo :: rest.calls
            delays := c.retryDelay * 2 ^ attempt :: rest.delays
            attempts := rest.attempts + 1
            result := rest.result }

/-- The whole attempt loop, started at attempt 0 with `retries` retries
remaining. -/
def requestLoop (c : ApiClient) (tr : Nat → FetchOptions → FetchOutcome)
    (opts : RequestOptions) (now : Nat) : AttemptTrace :=
  requestGo c tr opts now c.retries 0

/-- `request` (src/client.ts lines 160–236): build the URL (outside the
try/catch — a URL failure escapes as a rejection), then run the attempt
loop, which always resolves. -/
def ApiClient.request (c : ApiClient) (path : String) (opts : RequestOptions)
    (tr : Nat → FetchOptions → FetchOutcome) (now : Nat) :
    Except String AttemptTrace :=
  match c.buildUrl path opts.params with
  | none => Except.error "Invalid URL"
  | some _ => Except.ok (requestLoop c tr opts now)

/-- `get` (src/client.ts lines 241–246). -/
def ApiClient.get (c : ApiClient) (path : String)
    (params : Option (List (String × ParamVal)))
    (tr : Nat → FetchOptions → FetchOutcome) (now : Nat) :
    Except String AttemptTrace :=
  c.request path { method := some "GET", params := params } tr now

/-- `post` (src/client.ts lines 251–253). -/
def ApiClient.post (c : ApiClient) (path : String) (body : Option JsonVal)
    (tr : Nat → FetchOptions → FetchOutcome) (now : Nat) :
    Except String AttemptTrace :=
  c.request path { method := some "POST", body := body } tr now

/-- `put` (src/client.ts lines 258–260). -/
def ApiClient.put (c : ApiClient) (path : String) (body : Option JsonVal)
    (tr : Nat → FetchOptions → FetchOutcome) (now : Nat) :
    Except String AttemptTrace :=
  c.request path { method := some "PUT", body := body } tr now

/-- `delete` (src/client.ts lines 265–267). -/
def ApiClient.delete (c : ApiClient) (path : String)
    (tr : Nat → FetchOptions → FetchOutcome) (now : Nat) :
    Except String AttemptTrace :=
  c.request path { method := some "DELETE" } tr now

/-- `patch` (src/client.ts lines 272–274). -/
def ApiClient.patch (c : ApiClient) (path : String) (body : Option JsonVal)
    (tr : Nat → FetchOptions → FetchOutcome) (now : Nat) :
    Except String AttemptTrace :=
  c.request path { method := some "PATCH", body := body } tr now

/-! ## General lemmas about the attempt loop -/

theorem requestGo_retryable_all (c : ApiClient)
    (tr : Nat → FetchOptions → FetchOutcome) (opts : RequestOptions) (now : Nat)
    (le : Nat → ApiResponse)
    (h : ∀ i o, attemptOutcome (tr i o) = StepResult.retryable (le i)) :
    ∀ r attempt, requestGo c tr opts now r attempt =
      { calls := List.replicate (r + 1) (mkFetchOptions c opts now)
        delays := (List.range r).map (fun k => c.retryDelay * 2 ^ (attempt + k))
        attempts := r + 1
        result := le (attempt + r) } := by
  intro r
  induction r with
  | zero =>
      intro attempt
      simp [requestGo, h]
  | succ r ih =>
      intro attempt
      rw [requestGo, h, ih (attempt + 1)]
      simp only [AttemptTrace.mk.injEq]
      refine ⟨by simp [List.replicate_succ], ?_, trivial, ?_⟩
      · rw [List.range_succ_eq_map, List.map_cons, List.map_map]
        have h2 : ((fun k => c.retryDelay * 2 ^ (attempt + k)) ∘ Nat.succ) =
            (fun k => c.retryDelay * 2 ^ (attempt + 1 + k)) := by
          funext k
          simp only [Function.comp]
          have hk : attempt + Nat.succ k = attempt + 1 + k := by omega
          rw [hk]
        rw [h2]
        simp
      · have hk : attempt + 1 + r = attempt + (r + 1) := by omega
        rw [hk]

theorem requestGo_done (c : ApiClient)
    (tr : Nat → FetchOptions → FetchOutcome) (opts : RequestOptions) (now : Nat)
    (res : ApiResponse)
    (h : attemptOutcome (tr 0 (mkFetchOptions c opts now)) = StepResult.done res) :
    ∀ r, requestGo c tr opts now r 0 =
      { calls := [mkFetchOptions c opts now], delays := [], attempts := 1,
        result := res } := by
  intro r
  cases r with
  | zero => simp [requestGo, h]
  | succ r => simp [requestGo, h]

/-- Every outcome the attempt body can produce is a well-formed envelope:
`data` present and no `error` exactly on the `ok` branch. -/
theorem attemptOutcome_wf (o : FetchOutcome) (res : ApiResponse)
    (hres : attemptOutcome o = StepResult.done res ∨
            attemptOutcome o = StepResult.retryable res) :
    (res.ok = true → res.data.isSome = true ∧ res.error = none) ∧
    (res.ok = false → res.error.isSome = true ∧ res.data = none) := by
  have hshape : (∃ s d, attemptOutcome o = StepResult.done
        { ok := true, status := s, data := some d, error := none }) ∨
      (∃ s e, attemptOutcome o = StepResult.done
        { ok := false, status := s, data := none, error := some e }) ∨
      (∃ s e, attemptOutcome o = StepResult.retryable
        { ok := false, status := s, data := none, error := some e }) := by
    cases o with
    | resp status body =>
        by_cases hok : respOk status = true
        · exact Or.inl ⟨status, body.getD (JsonVal.jobj []),
            by simp [attemptOutcome, hok]⟩
        · by_cases hre : isRetryable status = true
          · exact Or.inr (Or.inr ⟨status,
              errorMessage (body.getD (JsonVal.jobj [])) status,
              by simp [attemptOutcome, hok, hre]⟩)
          · exact Or.inr (Or.inl ⟨status,
              errorMessage (body.getD (JsonVal.jobj [])) status,
              by simp [attemptOutcome, hok, hre]⟩)
    | thrown msg =>
        exact Or.inr (Or.inr ⟨0, msg.getD "Network error", by simp [attemptOutcome]⟩)
  rcases hshape with ⟨s, d, hs⟩ | ⟨s, e, hs⟩ | ⟨s, e, hs⟩ <;>
    rw [hs] at hres <;>
    rcases hres with hres | hres <;>
    cases hres <;> simp

theorem requestGo_wf (c : ApiClient)
    (tr : Nat → FetchOptions → FetchOutcome) (opts : RequestOptions) (now : Nat) :
    ∀ r attempt,
      ((requestGo c tr opts now r attempt).result.ok = true →
        (requestGo c tr opts now r attempt).result.data.isSome = true ∧
        (requestGo c tr opts now r attempt).result.error = none) ∧
      ((requestGo c tr opts now r attempt).result.ok = false →
        (requestGo c tr opts now r attempt).result.error.isSome = true ∧
        (requestGo c tr opts now r attempt).result.data = none) := by
  intro r
  induction r with
  | zero =>
      intro attempt
      rcases hA : attemptOutcome (tr attempt (mkFetchOptions c opts now)) with res | res
      · simpa [requestGo, hA] using attemptOutcome_wf _ res (Or.inl hA)
      · simpa [requestGo, hA] using attemptOutcome_wf _ res (Or.inr hA)
  | succ r ih =>
      intro attempt
      rcases hA : attemptOutcome (tr attempt (mkFetchOptions c opts now)) with res | res
      · simpa [requestGo, hA] using attemptOutcome_wf _ res (Or.inl hA)
      · simpa [requestGo, hA] using ih (attempt + 1)

/-- Every set of fetch options passed to the transport during the loop is
the one rebuilt from current client state (headers recomputed per attempt). -/
theorem requestGo_calls (c : ApiClient)
    (tr : Nat → FetchOptions → FetchOutcome) (opts : RequestOptions) (now : Nat) :
    ∀ r attempt fo, fo ∈ (requestGo c tr opts now r attempt).calls →
      fo = mkFetchOptions c opts now := by
  intro r
  induction r with
  | zero =>
      intro attempt fo hfo
      simp [requestGo] at hfo
      exact hfo
  | succ r ih =>
      intro attempt fo hfo
      rcases hA : attemptOutcome (tr attempt (mkFetchOptions c opts now)) with res | res
      · simp [requestGo, hA] at hfo
        exact hfo
      · simp [requestGo, hA] at hfo
        rcases hfo with hfo | hfo
        · exact hfo
        · exact ih (attempt + 1) fo hfo

/-! ## Concrete fixtures shared by witnesses and counterexamples -/

/-- A well-configured anonymous client (valid endpoint, no credentials). -/
def cFix : ApiClient :=
  { endpoint := "https://api.example.com", bearerToken := none, apiKey := none,
    userId := none, secret := none, retries := 2, retryDelay := 100 }

/-- A transport that always answers 200 with an empty JSON object. -/
def trOk : Nat → FetchOptions → FetchOutcome :=
  fun _ _ => FetchOutcome.resp 200 (some (JsonVal.jobj []))

/-- A transport that always throws an `Error` with message `"boom"`. -/
def mBoom : Nat → Option String := fun _ => some "boom"

/-- The throwing transport built from `mBoom`. -/
def trBoom : Nat → FetchOptions → FetchOutcome :=
  fun i _ => FetchOutcome.thrown (mBoom i)

/-- A transport answering 201 with an unparseable body. -/
def tr201Bad : Nat → FetchOptions → FetchOutcome :=
  fun _ _ => FetchOutcome.resp 201 none

/-! ## Claim theorems -/

/-- C5: with `retries = 1` and a transport that throws on every attempt,
one call makes exactly 2 attempts and resolves to
`{ ok: false, status: 0, error: <exception message or "Network error"> }`. -/
theorem c5_throwing_transport_two_attempts (c : ApiClient)
    (opts : RequestOptions) (now : Nat) (m : Nat → Option String)
    (tr : Nat → FetchOptions → FetchOutcome)
    (hr : c.retries = 1)
    (htr : ∀ i o, tr i o = FetchOutcome.thrown (m i)) :
    (requestLoop c tr opts now).attempts = 2 ∧
    (requestLoop c tr opts now).result =
      { ok := false, status := 0, data := none,
        error := some ((m 1).getD "Network error") } := by
  have hA : ∀ i o, attemptOutcome (tr i o) = StepResult.retryable
      { ok := false, status := 0, data := none,
        error := some ((m i).getD "Network error") } := by
    intro i o
    rw [htr]
    rfl
  have h := requestGo_retryable_all c tr opts now _ hA 1 0
  rw [requestLoop, hr, h]
  exact ⟨rfl, rfl⟩

/-- Witness for C5 at a concrete client and throwing transport. -/
theorem c5_throwing_transport_two_attempts_witness :
    ({ cFix with retries := 1 } : ApiClient).retries = 1 ∧
    ((requestLoop { cFix with retries := 1 } trBoom {} 0).attempts = 2 ∧
     (requestLoop { cFix with retries := 1 } trBoom {} 0).result =
       { ok := false, status := 0, data := none,
         error := some ((mBoom 1).getD "Network error") }) :=
  ⟨rfl, c5_throwing_transport_two_attempts { cFix with retries := 1 } {} 0
    mBoom trBoom rfl (fun _ _ => rfl)⟩

/-- C9: a response with a success status whose body fails to parse as JSON
resolves in a single attempt to `{ ok: true, status, data: {} }`. -/
theorem c9_parse_failure_empty_object (c : ApiClient) (opts : RequestOptions)
    (now : Nat) (tr : Nat → FetchOptions → FetchOutcome) (s : Nat)
    (h1 : 200 ≤ s) (h2 : s < 300)
    (htr : ∀ o, tr 0 o = FetchOutcome.resp s none) :
    (requestLoop c tr opts now).attempts = 1 ∧
    (requestLoop c tr opts now).delays = [] ∧
    (requestLoop c tr opts now).result =
      { ok := true, status := s, data := some (JsonVal.jobj []), error := none } := by
  have hok : respOk s = true := by
    simp only [respOk, Bool.and_eq_true, decide_eq_true_eq]
    exact ⟨h1, h2⟩
  have hA : attemptOutcome (tr 0 (mkFetchOptions c opts now)) =
      StepResult.done { ok := true, status := s, data := some (JsonVal.jobj []),
                        error := none } := by
    rw [htr]
    simp [attemptOutcome, hok]
  rw [requestLoop, requestGo_done c tr opts now _ hA c.retries]
  exact ⟨rfl, rfl, rfl⟩

/-- Witness for C9 at status 201 and a concrete client. -/
theorem c9_parse_failure_empty_object_witness :
    (200 ≤ 201 ∧ 201 < 300) ∧
    ((requestLoop cFix tr201Bad {} 0).attempts = 1 ∧
     (requestLoop cFix tr201Bad {} 0).delays = [] ∧
     (requestLoop cFix tr201Bad {} 0).result =
       { ok := true, status := 201, data := some (JsonVal.jobj []), error := none }) :=
  ⟨⟨by decide, by decide⟩,
   c9_parse_failure_empty_object cFix {} 0 tr201Bad 201 (by decide) (by decide)
     (fun _ => rfl)⟩

/-- C1 (amended): for every successfully constructed client, every call to
`request` (and, through their forwarding equations, to the verb helpers)
whose path resolves against the endpoint to a valid URL resolves to a
well-formed `ApiResponse` envelope — every transport failure, non-2xx
response and JSON-parse failure folded into the `ok:false` branch; when URL
resolution fails, the call rejects with `Invalid URL` at request time (an
escape beyond the constructor-time and legacy-auth configuration errors
that the original claim listed). -/
theorem c1_request_always_resolves (c : ApiClient) (path : String)
    (opts : RequestOptions) (tr : Nat → FetchOptions → FetchOutcome) (now : Nat) :
    ((c.buildUrl path opts.params).isSome = true →
      ∃ t, c.request path opts tr now = Except.ok t ∧
        (t.result.ok = true → t.result.data.isSome = true ∧ t.result.error = none) ∧
        (t.result.ok = false → t.result.error.isSome = true ∧ t.result.data = none)) ∧
    (c.buildUrl path opts.params = none →
      c.request path opts tr now = Except.error "Invalid URL") ∧
    (∀ params, c.get path params tr now =
      c.request path { method := some "GET", params := params } tr now) ∧
    (∀ body, c.post path body tr now =
      c.request path { method := some "POST", body := body } tr now) ∧
    (∀ body, c.put path body tr now =
      c.request path { method := some "PUT", body := body } tr now) ∧
    (c.delete path tr now = c.request path { method := some "DELETE" } tr now) ∧
    (∀ body, c.patch path body tr now =
      c.request path { method := some "PATCH", body := body } tr now) := by
  refine ⟨?_, ?_, fun _ => rfl, fun _ => rfl, fun _ => rfl, rfl, fun _ => rfl⟩
  · intro h
    rcases hu : c.buildUrl path opts.params with _ | u
    · rw [hu] at h
      simp at h
    · refine ⟨requestLoop c tr opts now, ?_, ?_, ?_⟩
      · unfold ApiClient.request
        rw [hu]
      · exact (requestGo_wf c tr opts now c.retries 0).1
      · exact (requestGo_wf c tr opts now c.retries 0).2
  · intro h
    unfold ApiClient.request
    rw [h]

/-- Witness for C1 at a concrete client with a valid endpoint. -/
theorem c1_request_always_resolves_witness :
    (cFix.buildUrl "/x" (none : Option (List (String × ParamVal)))).isSome = true ∧
    (∃ t, cFix.request "/x" {} trOk 0 = Except.ok t ∧
      (t.result.ok = true → t.result.data.isSome = true ∧ t.result.error = none) ∧
      (t.result.ok = false → t.result.error.isSome = true ∧ t.result.data = none)) :=
  ⟨by decide, (c1_request_always_resolves cFix "/x" {} trOk 0).1 (by decide)⟩

/-- The configuration of the C1 counterexample: a nonempty but unparsable
endpoint, accepted by the constructor. -/
def cfgBadUrl : ClientConfig := { endpoint := some "not-a-url" }

/-- An environment without any `ENTROLYTICS_*` variables. -/
def envNone : String → Option String := fun _ => none

/-- The client the constructor builds from `cfgBadUrl`. -/
def cBadUrl : ApiClient :=
  { endpoint := "not-a-url", bearerToken := none, apiKey := none,
    userId := none, secret := none, retries := 3, retryDelay := 1000 }

/-- Counterexample to C1 as stated: the client constructs successfully
(endpoint `"not-a-url"` is nonempty), yet `request` on path `"x"` rejects
— `new URL("x", "not-a-url")` throws `TypeError: Invalid URL` at request
time, which is neither of the two misconfiguration errors the claim
allows. -/
theorem c1_request_always_resolves_counterexample :
    mkClient cfgBadUrl envNone = Except.ok cBadUrl ∧
    cBadUrl.request "x" {} trOk 0 = Except.error "Invalid URL" :=
  ⟨rfl, rfl⟩

/-- C3: with a bearer token present (nonempty), `getAuthHeaders` yields the
`Authorization` bearer header regardless of the other credentials; with the
bearer absent/falsy, a nonempty API key yields the API-key header; headers
are a pure function of the current mutable state, so an updated bearer
token is reflected by the very next derivation. -/
theorem c3_auth_priority_order :
    (∀ (c : ApiClient) (now : Nat) (bt : String),
       c.bearerToken = some bt → bt ≠ "" →
       c.getAuthHeaders now = [("Authorization", "Bearer " ++ bt)]) ∧
    (∀ (c : ApiClient) (now : Nat) (ak : String),
       truthy c.bearerToken = false → c.apiKey = some ak → ak ≠ "" →
       c.getAuthHeaders now = [("x-entrolytics-api-key", ak)]) ∧
    (∀ (c : ApiClient) (now : Nat) (t : String), t ≠ "" →
       (c.setBearerToken t).getAuthHeaders now =
         [("Authorization", "Bearer " ++ t)]) := by
  refine ⟨?_, ?_, ?_⟩
  · intro c now bt hbt hne
    have hb : truthy (some bt) = true := by simp [truthy, hne]
    simp [ApiClient.getAuthHeaders, hbt, hb]
  · intro c now ak hb hak hne
    have hk : truthy (some ak) = true := by simp [truthy, hne]
    simp [ApiClient.getAuthHeaders, hb, hak, hk]
  · intro c now t hne
    have hb : truthy (some t) = true := by simp [truthy, hne]
    simp [ApiClient.setBearerToken, ApiClient.getAuthHeaders, hb]

/-- A client with all three credential sets supplied at once. -/
def cAllCreds : ApiClient :=
  { endpoint := "https://api.example.com", bearerToken := some "B",
    apiKey := some "K", userId := some "U", secret := some "S",
    retries := 3, retryDelay := 1000 }

/-- A client with API key and legacy pair but no bearer token. -/
def cNoBearer : ApiClient :=
  { endpoint := "https://api.example.com", bearerToken := none,
    apiKey := some "K", userId := some "U", secret := some "S",
    retries := 3, retryDelay := 1000 }

/-- Witness for C3: all three credentials present gives the bearer header;
without the bearer the API key beats the legacy pair; a token update is
picked up immediately. -/
theorem c3_auth_priority_order_witness :
    cAllCreds.getAuthHeaders 0 = [("Authorization", "Bearer " ++ "B")] ∧
    cNoBearer.getAuthHeaders 0 = [("x-entrolytics-api-key", "K")] ∧
    (cAllCreds.setBearerToken "T").getAuthHeaders 0 =
      [("Authorization", "Bearer " ++ "T")] :=
  ⟨c3_auth_priority_order.1 cAllCreds 0 "B" rfl (by decide),
   c3_auth_priority_order.2.1 cNoBearer 0 "K" (by decide) rfl (by decide),
   c3_auth_priority_order.2.2 cAllCreds 0 "T" (by decide)⟩

/-- Is this header name one of the three credential headers? -/
def credName (n : String) : Bool :=
  n == "Authorization" || n == "x-entrolytics-api-key" ||
    n == "x-entrolytics-share-token"

/-- How many credential headers a header list carries. -/
def countCred (hs : List (String × String)) : Nat :=
  (hs.filter (fun p => credName p.1)).length

theorem getAuthHeaders_count (c : ApiClient) (now : Nat) :
    countCred (c.getAuthHeaders now) ≤ 1 ∧
    ((truthy c.bearerToken = true ∨ truthy c.apiKey = true ∨
      (truthy c.userId && truthy c.secret) = true) →
      countCred (c.getAuthHeaders now) = 1) := by
  by_cases hb : truthy c.bearerToken = true
  · simp [ApiClient.getAuthHeaders, hb, countCred, credName]
  · by_cases ha : truthy c.apiKey = true
    · simp [ApiClient.getAuthHeaders, hb, ha, countCred, credName]
    · by_cases hl : (truthy c.userId && truthy c.secret) = true
      · obtain ⟨t, ht⟩ := createShareToken_ok_under_guard c now hl
        rcases Bool.and_eq_true_iff.mp hl with ⟨h1, h2⟩
        simp [ApiClient.getAuthHeaders, hb, ha, h1, h2, ht, countCred, credName]
      · have h0 : c.getAuthHeaders now = [] := by
          rcases Bool.and_eq_false_iff.mp (Bool.not_eq_true _ ▸ hl) with h | h
          all_goals simp [ApiClient.getAuthHeaders, hb, ha]
          all_goals intro h1 h2
          all_goals rw [h1, h2] at hl
          all_goals simp at hl
        rw [h0]
        refine ⟨by simp [countCred], ?_⟩
        intro h
        rcases h with h | h | h <;> contradiction

/-- With no credential configured (all three truthiness checks falsy),
`getAuthHeaders` yields no header at all. -/
theorem getAuthHeaders_anon (c : ApiClient) (now : Nat)
    (hb : truthy c.bearerToken = false) (ha : truthy c.apiKey = false)
    (hl : (truthy c.userId && truthy c.secret) = false) :
    c.getAuthHeaders now = [] := by
  simp [ApiClient.getAuthHeaders, hb, ha]
  intro h1 h2
  rw [h1, h2] at hl
  simp at hl

theorem countCred_cons (p : String × String) (r : List (String × String)) :
    countCred (p :: r) =
      if credName p.1 = true then countCred r + 1 else countCred r := by
  by_cases h : credName p.1 = true
  · simp [countCred, List.filter_cons, h]
  · simp [countCred, List.filter_cons, h]

theorem countCred_append (a b : List (String × String)) :
    countCred (a ++ b) = countCred a + countCred b := by
  simp [countCred, List.filter_append]

theorem countCred_setmap (r : List (String × String)) (k v : String)
    (hk : credName k = false) :
    countCred (r.map (fun p => if p.1 == k then (k, v) else p)) = countCred r := by
  induction r with
  | nil => rfl
  | cons p r ih =>
      rw [List.map_cons, countCred_cons, countCred_cons, ih]
      by_cases hpk : (p.1 == k) = true
      · have hp1 : p.1 = k := by simpa using hpk
        simp [hpk, hp1, hk]
      · simp [hpk]

/-- Setting a non-credential-named key leaves the credential count alone. -/
theorem countCred_recSet (r : List (String × String)) (k v : String)
    (hk : credName k = false) :
    countCred (recSet r k v) = countCred r := by
  unfold recSet
  by_cases ha : r.any (fun p => p.1 == k) = true
  · rw [if_pos ha]
    exact countCred_setmap r k v hk
  · rw [if_neg ha, countCred_append]
    have h0 : countCred [(k, v)] = 0 := by simp [countCred, hk]
    rw [h0, Nat.add_zero]

/-- Spreading an override map none of whose keys is a credential header
name leaves the credential count alone. -/
theorem countCred_recMerge (ov : List (String × String))
    (r : List (String × String)) (hov : ∀ p ∈ ov, credName p.1 = false) :
    countCred (recMerge r ov) = countCred r := by
  induction ov generalizing r with
  | nil => rfl
  | cons o ov ih =>
      have h1 : recMerge r (o :: ov) = recMerge (recSet r o.1 o.2) ov := rfl
      rw [h1, ih (recSet r o.1 o.2) (fun p hp => hov p (List.mem_cons_of_mem o hp)),
        countCred_recSet r o.1 o.2 (hov o (List.mem_cons_self o ov))]

theorem requestHeaders_countCred (c : ApiClient) (now : Nat)
    (ov : List (String × String)) (hov : ∀ p ∈ ov, credName p.1 = false) :
    countCred (requestHeaders c now ov) = countCred (c.getAuthHeaders now) := by
  unfold requestHeaders
  rw [countCred_recMerge ov _ hov]
  by_cases hb : truthy c.bearerToken = true
  · simp [ApiClient.getAuthHeaders, hb, recMerge, recSet, countCred, credName]
  · by_cases ha : truthy c.apiKey = true
    · simp [ApiClient.getAuthHeaders, hb, ha, recMerge, recSet, countCred, credName]
    · by_cases hl : (truthy c.userId && truthy c.secret) = true
      · obtain ⟨t, ht⟩ := createShareToken_ok_under_guard c now hl
        rcases Bool.and_eq_true_iff.mp hl with ⟨h1, h2⟩
        simp [ApiClient.getAuthHeaders, hb, ha, h1, h2, ht,
          recMerge, recSet, countCred, credName]
      · have h0 : c.getAuthHeaders now = [] :=
          getAuthHeaders_anon c now (Bool.not_eq_true _ ▸ hb)
            (Bool.not_eq_true _ ▸ ha) (Bool.not_eq_true _ ▸ hl)
        simp [h0, recMerge, recSet, countCred, credName]

/-- C7 (amended): the engine's auth derivation contributes at most one of
the three credential headers per request — exactly one when at least one
credential set is configured (truthy bearer, truthy API key, or truthy
legacy pair) and none for an anonymous client — and for every
caller-supplied header override map none of whose keys names a credential
header, the headers on the wire carry exactly that derived count (the
original claim's "exactly one ... for every credential configuration and
every override map" fails for the anonymous client and for overrides that
add credential-named headers, both shown in the counterexample). -/
theorem c7_single_credential_header :
    (∀ (c : ApiClient) (now : Nat), countCred (c.getAuthHeaders now) ≤ 1) ∧
    (∀ (c : ApiClient) (now : Nat),
       (truthy c.bearerToken = true ∨ truthy c.apiKey = true ∨
        (truthy c.userId && truthy c.secret) = true) →
       countCred (c.getAuthHeaders now) = 1) ∧
    (∀ (c : ApiClient) (now : Nat),
       truthy c.bearerToken = false → truthy c.apiKey = false →
       (truthy c.userId && truthy c.secret) = false →
       countCred (c.getAuthHeaders now) = 0) ∧
    (∀ (c : ApiClient) (opts : RequestOptions) (now : Nat)
       (tr : Nat → FetchOptions → FetchOutcome) (fo : FetchOptions),
       (∀ p ∈ opts.headers.getD [], credName p.1 = false) →
       fo ∈ (requestLoop c tr opts now).calls →
       countCred fo.headers = countCred (c.getAuthHeaders now)) := by
  refine ⟨fun c now => (getAuthHeaders_count c now).1,
    fun c now => (getAuthHeaders_count c now).2, ?_, ?_⟩
  · intro c now hb ha hl
    rw [getAuthHeaders_anon c now hb ha hl]
    rfl
  · intro c opts now tr fo hov hfo
    have hfo' := requestGo_calls c tr opts now c.retries 0 fo hfo
    rw [hfo']
    show countCred (requestHeaders c now (opts.headers.getD [])) = _
    exact requestHeaders_countCred c now (opts.headers.getD []) hov

/-- The options of the C7 witness: a caller override map that names no
credential header. -/
def optsCustom : RequestOptions := { headers := some [("X-Custom", "1")] }

/-- Witness for C7 at concrete clients and a concrete call with a
non-credential override map. -/
theorem c7_single_credential_header_witness :
    countCred (cAllCreds.getAuthHeaders 0) ≤ 1 ∧
    countCred (cAllCreds.getAuthHeaders 0) = 1 ∧
    countCred (cFix.getAuthHeaders 0) = 0 ∧
    countCred (mkFetchOptions cAllCreds optsCustom 0).headers =
      countCred (cAllCreds.getAuthHeaders 0) :=
  ⟨c7_single_credential_header.1 cAllCreds 0,
   c7_single_credential_header.2.1 cAllCreds 0 (Or.inl (by decide)),
   c7_single_credential_header.2.2.1 cFix 0 rfl rfl rfl,
   c7_single_credential_header.2.2.2 cAllCreds optsCustom 0 trOk
     (mkFetchOptions cAllCreds optsCustom 0) (by decide) (by decide)⟩

/-- The options of the C7 counterexample: a caller override map that adds
the API-key credential header. -/
def optsOverride : RequestOptions :=
  { headers := some [("x-entrolytics-api-key", "K2")] }

/-- Counterexample to C7 as stated, in both directions: an anonymous
client (no credential configured) sends a request whose headers carry
none of the three credential headers, not exactly one; and a
bearer-credentialed client whose caller override supplies the API-key
header sends two credential headers, not exactly one. -/
theorem c7_single_credential_header_counterexample :
    ((requestLoop cFix trOk {} 0).calls = [mkFetchOptions cFix {} 0] ∧
     countCred (mkFetchOptions cFix {} 0).headers = 0) ∧
    ((requestLoop cAllCreds trOk optsOverride 0).calls =
        [mkFetchOptions cAllCreds optsOverride 0] ∧
     countCred (mkFetchOptions cAllCreds optsOverride 0).headers = 2) :=
  ⟨⟨rfl, rfl⟩, ⟨rfl, rfl⟩⟩

/-- C6 (amended): every fetch call of a request carries exactly
`sentBody` of the caller's body option: an absent body sends no body, a
truthy body is attached as its JSON serialization, but a falsy body
(`false`, `0`, `""`, `null`) is treated as absent by the `if (body)` guard
and not attached (the original claim promised attachment for every
supplied serializable body). -/
theorem c6_body_attachment :
    (∀ (c : ApiClient) (opts : RequestOptions) (now : Nat)
       (tr : Nat → FetchOptions → FetchOutcome) (fo : FetchOptions),
       fo ∈ (requestLoop c tr opts now).calls → fo.body = sentBody opts.body) ∧
    sentBody none = none ∧
    (∀ v, jsTruthy v = true → sentBody (some v) = some (jsonStringify v)) ∧
    (∀ v, jsTruthy v = false → sentBody (some v) = none) := by
  refine ⟨?_, rfl, ?_, ?_⟩
  · intro c opts now tr fo hfo
    have hfo' := requestGo_calls c tr opts now c.retries 0 fo hfo
    rw [hfo']
    rfl
  · intro v hv
    simp [sentBody, hv]
  · intro v hv
    simp [sentBody, hv]

/-- The options of the C6 witness: a truthy JSON object body. -/
def optsBody : RequestOptions := { body := some (JsonVal.jobj [("a", JsonVal.jnum 1)]) }

/-- Witness for C6 at a concrete request with a truthy body and at falsy
and absent bodies. -/
theorem c6_body_attachment_witness :
    (mkFetchOptions cFix optsBody 0).body = sentBody optsBody.body ∧
    sentBody (some (JsonVal.jobj [("a", JsonVal.jnum 1)])) =
      some (jsonStringify (JsonVal.jobj [("a", JsonVal.jnum 1)])) ∧
    sentBody (some (JsonVal.jnum 0)) = none :=
  ⟨c6_body_attachment.1 cFix optsBody 0 trOk (mkFetchOptions cFix optsBody 0)
     (by decide),
   c6_body_attachment.2.2.1 (JsonVal.jobj [("a", JsonVal.jnum 1)]) rfl,
   c6_body_attachment.2.2.2 (JsonVal.jnum 0) rfl⟩

/-- Counterexample to C6 as stated: the caller supplies the
JSON-serializable body `false` (serialization `"false"`), yet the outgoing
call carries no body at all. -/
theorem c6_body_attachment_counterexample :
    (mkFetchOptions cFix { body := some (JsonVal.jbool false) } 0).body = none ∧
    jsonStringify (JsonVal.jbool false) = "false" ∧
    (mkFetchOptions cFix { body := some (JsonVal.jbool false) } 0).body ≠
      some (jsonStringify (JsonVal.jbool false)) :=
  ⟨rfl, rfl, by decide⟩

/-! ## Query-parameter lemmas -/

theorem qlookup_cons (p : String × String) (q : List (String × String))
    (k : String) :
    qlookup (p :: q) k = if (p.1 == k) = true then some p.2 else qlookup q k := by
  by_cases h : (p.1 == k) = true
  · simp [qlookup, List.find?_cons_of_pos, h]
  · simp only [qlookup, List.find?_cons_of_neg _ h]
    simp [h]

theorem qlookup_filter_ne (q : List (String × String)) (k1 k2 : String)
    (hne : k1 ≠ k2) :
    qlookup (q.filter (fun x => !(x.1 == k1))) k2 = qlookup q k2 := by
  induction q with
  | nil => rfl
  | cons x q ih =>
      by_cases hx : x.1 = k1
      · have h1 : (!(x.1 == k1)) = false := by simp [hx]
        rw [List.filter_cons, h1]
        have hk : (x.1 == k2) = false := by
          rw [hx]
          simpa using hne
        simp only [Bool.false_eq_true, if_false]
        rw [ih, qlookup_cons, hk]
        simp
      · have h1 : (!(x.1 == k1)) = true := by simp [hx]
        rw [List.filter_cons, h1]
        simp only [if_true]
        rw [qlookup_cons, qlookup_cons, ih]

theorem setParam_lookup_self (q : List (String × String)) (k v : String) :
    qlookup (setParam q k v) k = some v := by
  induction q with
  | nil => simp [setParam, qlookup_cons]
  | cons p q ih =>
      by_cases h : p.1 = k
      · simp [setParam, h, qlookup_cons]
      · have hk : (p.1 == k) = false := by simp [h]
        simp only [setParam, h, if_false]
        rw [qlookup_cons, hk]
        simp [ih]

theorem setParam_lookup_other (q : List (String × String)) (k1 k2 v : String)
    (hne : k1 ≠ k2) :
    qlookup (setParam q k1 v) k2 = qlookup q k2 := by
  induction q with
  | nil =>
      have hk : (k1 == k2) = false := by simpa using hne
      simp [setParam, qlookup_cons, hk, qlookup]
  | cons p q ih =>
      by_cases h : p.1 = k1
      · have hk : (k1 == k2) = false := by simpa using hne
        have hp : (p.1 == k2) = false := by
          rw [h]
          simpa using hne
        simp only [setParam, h, if_true]
        rw [qlookup_cons, hk, qlookup_cons, hp]
        simp only [Bool.false_eq_true, if_false]
        rw [qlookup_filter_ne q k1 k2 hne]
      · simp only [setParam, h, if_false]
        rw [qlookup_cons, qlookup_cons, ih]

theorem applyParams_lookup (ps : List (String × ParamVal))
    (q : List (String × String)) (k : String) :
    qlookup (applyParams q ps) k =
      match lastDefinedVal ps k with
      | some v => some (paramToString v)
      | none => qlookup q k := by
  induction ps generalizing q with
  | nil => rfl
  | cons p ps ih =>
      have happ : applyParams q (p :: ps) = applyParams (stepParam q p) ps := rfl
      rw [happ, ih (stepParam q p)]
      rcases hl : lastDefinedVal ps k with _ | v
      · simp only [hl]
        have hcons : lastDefinedVal (p :: ps) k =
            (if (p.1 == k && !isUndef p.2) = true then some p.2 else none) := by
          simp [lastDefinedVal, hl]
        rw [hcons]
        by_cases hc : (p.1 == k && !isUndef p.2) = true
        · rcases Bool.and_eq_true_iff.mp hc with ⟨hk, hd⟩
          have hu : isUndef p.2 = false := by
            revert hd
            cases isUndef p.2 <;> simp
          have hk' : p.1 = k := by simpa using hk
          rw [if_pos hc]
          show qlookup (stepParam q p) k = some (paramToString p.2)
          have hs : stepParam q p = setParam q p.1 (paramToString p.2) := by
            simp [stepParam, hu]
          rw [hs, hk']
          exact setParam_lookup_self q k (paramToString p.2)
        · rw [if_neg hc]
          show qlookup (stepParam q p) k = qlookup q k
          by_cases hu : isUndef p.2 = true
          · have hs : stepParam q p = q := by simp [stepParam, hu]
            rw [hs]
          · have hu' : isUndef p.2 = false := by
              revert hu
              cases isUndef p.2 <;> simp
            have hk' : (p.1 == k) = false := by
              cases hpk : (p.1 == k)
              · rfl
              · exact absurd (by rw [hpk, hu']; decide) hc
            have hne : p.1 ≠ k := by simpa using hk'
            have hs : stepParam q p = setParam q p.1 (paramToString p.2) := by
              simp [stepParam, hu']
            rw [hs]
            exact setParam_lookup_other q p.1 k (paramToString p.2) hne
      · have hcons : lastDefinedVal (p :: ps) k = some v := by
          simp [lastDefinedVal, hl]
        simp [hl, hcons]

theorem applyParams_skip_undef (q : List (String × String))
    (ps : List (String × ParamVal)) :
    applyParams q (ps.filter (fun p => !isUndef p.2)) = applyParams q ps := by
  induction ps generalizing q with
  | nil => rfl
  | cons p ps ih =>
      by_cases hu : isUndef p.2 = true
      · have h0 : (!isUndef p.2) = false := by simp [hu]
        rw [List.filter_cons, h0]
        simp only [Bool.false_eq_true, if_false]
        have hstep : applyParams q (p :: ps) = applyParams (stepParam q p) ps := rfl
        rw [hstep]
        have hq : stepParam q p = q := by simp [stepParam, hu]
        rw [hq, ih]
      · have h0 : (!isUndef p.2) = true := by simp [hu]
        rw [List.filter_cons, h0]
        simp only [if_true]
        have h1 : applyParams q (p :: ps.filter (fun p => !isUndef p.2)) =
            applyParams (stepParam q p) (ps.filter (fun p => !isUndef p.2)) := rfl
        have h2 : applyParams q (p :: ps) = applyParams (stepParam q p) ps := rfl
        rw [h1, h2, ih]

/-- C8: `buildUrl` runs the parameter loop over the resolved URL's query;
entries whose value is `undefined` are omitted (dropping them leaves the
result unchanged), every key with a defined entry ends up mapped to the
string coercion of its last defined write, and keys without a defined
entry are untouched. -/
theorem c8_query_param_handling :
    (∀ (c : ApiClient) (path : String) (ps : List (String × ParamVal))
       (u : UrlParts), resolveUrl path c.endpoint = some u →
       c.buildUrlParsed path (some ps) =
         some { u with query := applyParams u.query ps }) ∧
    (∀ (q : List (String × String)) (ps : List (String × ParamVal)),
       applyParams q (ps.filter (fun p => !isUndef p.2)) = applyParams q ps) ∧
    (∀ (q : List (String × String)) (ps : List (String × ParamVal))
       (k : String) (v : ParamVal), lastDefinedVal ps k = some v →
       qlookup (applyParams q ps) k = some (paramToString v)) ∧
    (∀ (q : List (String × String)) (ps : List (String × ParamVal))
       (k : String), lastDefinedVal ps k = none →
       qlookup (applyParams q ps) k = qlookup q k) := by
  refine ⟨?_, applyParams_skip_undef, ?_, ?_⟩
  · intro c path ps u hu
    unfold ApiClient.buildUrlParsed
    rw [hu]
    rfl
  · intro q ps k v hv
    rw [applyParams_lookup, hv]
  · intro q ps k hv
    rw [applyParams_lookup, hv]

/-- The parameter list of the C8 witness: a defined number, an undefined
entry, and a boolean. -/
def psW : List (String × ParamVal) :=
  [("a", ParamVal.pnum 3), ("b", ParamVal.undef), ("c", ParamVal.pbool true)]

/-- The URL the C8 witness resolves to before parameters are applied. -/
def uW : UrlParts :=
  { scheme := "https", host := "api.example.com", pathName := "/x", query := [] }

/-- Witness for C8 at a concrete path and parameter map: the undefined
entry `b` is omitted, `a` and `c` appear string-coerced. -/
theorem c8_query_param_handling_witness :
    cFix.buildUrlParsed "/x" (some psW) =
      some { uW with query := applyParams uW.query psW } ∧
    applyParams [] (psW.filter (fun p => !isUndef p.2)) = applyParams [] psW ∧
    qlookup (applyParams [] psW) "a" = some (paramToString (ParamVal.pnum 3)) ∧
    qlookup (applyParams [] psW) "c" = some (paramToString (ParamVal.pbool true)) ∧
    qlookup (applyParams [] psW) "b" = qlookup [] "b" :=
  ⟨c8_query_param_handling.1 cFix "/x" psW uW (by decide),
   c8_query_param_handling.2.1 [] psW,
   c8_query_param_handling.2.2.1 [] psW "a" (ParamVal.pnum 3) (by decide),
   c8_query_param_handling.2.2.1 [] psW "c" (ParamVal.pbool true) (by decide),
   c8_query_param_handling.2.2.2 [] psW "b" (by decide)⟩

/-- The fields of a successfully constructed client, in terms of the
config/environment resolution. -/
theorem mkClient_ok_fields (cfg : ClientConfig) (env : String → Option String)
    (c : ApiClient) (h : mkClient cfg env = Except.ok c) :
    c.endpoint = (match jsOr cfg.endpoint (env "ENTROLYTICS_API_ENDPOINT") with
                  | some s => s
                  | none => "") ∧
    c.bearerToken = jsOr cfg.bearerToken (env "ENTROLYTICS_BEARER_TOKEN") ∧
    c.apiKey = jsOr cfg.apiKey (env "ENTROLYTICS_API_KEY") ∧
    c.userId = jsOr cfg.userId (env "ENTROLYTICS_USER_ID") ∧
    c.secret = jsOr cfg.secret (env "ENTROLYTICS_SECRET") ∧
    c.retries = cfg.retries.getD 3 ∧
    c.retryDelay = cfg.retryDelay.getD 1000 := by
  simp only [mkClient] at h
  split at h
  · cases h
  · injection h with h
    subst h
    exact ⟨rfl, rfl, rfl, rfl, rfl, rfl, rfl⟩

/-- C10: an empty-string credential is treated as absent at the public
interface — an explicit `""` config value for any of the five string
fields falls back to the environment variable, constructing with
`endpoint: ""` and no environment fallback throws the missing-endpoint
error, and a bearer token set to `""` (also via `setBearerToken`) yields
no `Authorization` header, shifting authentication to the API key or
legacy pair. -/
theorem c10_empty_string_treated_absent :
    (∀ env : String → Option String, env "ENTROLYTICS_API_ENDPOINT" = none →
       mkClient { endpoint := some "" } env = Except.error endpointRequiredMsg) ∧
    (∀ (cfg : ClientConfig) (env : String → Option String) (c : ApiClient),
       cfg.bearerToken = some "" → mkClient cfg env = Except.ok c →
       c.bearerToken = env "ENTROLYTICS_BEARER_TOKEN") ∧
    (∀ (cfg : ClientConfig) (env : String → Option String) (c : ApiClient),
       cfg.apiKey = some "" → mkClient cfg env = Except.ok c →
       c.apiKey = env "ENTROLYTICS_API_KEY") ∧
    (∀ (cfg : ClientConfig) (env : String → Option String) (c : ApiClient),
       cfg.userId = some "" → mkClient cfg env = Except.ok c →
       c.userId = env "ENTROLYTICS_USER_ID") ∧
    (∀ (cfg : ClientConfig) (env : String → Option String) (c : ApiClient),
       cfg.secret = some "" → mkClient cfg env = Except.ok c →
       c.secret = env "ENTROLYTICS_SECRET") ∧
    (∀ (cfg : ClientConfig) (env : String → Option String) (c : ApiClient)
       (s : String), cfg.endpoint = some "" → mkClient cfg env = Except.ok c →
       env "ENTROLYTICS_API_ENDPOINT" = some s → c.endpoint = s) ∧
    (∀ (c : ApiClient) (now : Nat),
       (c.setBearerToken "").getAuthHeaders now =
         ApiClient.getAuthHeaders
           { endpoint := c.endpoint, bearerToken := none, apiKey := c.apiKey,
             userId := c.userId, secret := c.secret, retries := c.retries,
             retryDelay := c.retryDelay } now) ∧
    (∀ (c : ApiClient) (now : Nat) (ak : String),
       c.apiKey = some ak → ak ≠ "" →
       (c.setBearerToken "").getAuthHeaders now =
         [("x-entrolytics-api-key", ak)]) := by
  refine ⟨?_, ?_, ?_, ?_, ?_, ?_, ?_, ?_⟩
  · intro env henv
    simp [mkClient, jsOr, henv]
  · intro cfg env c hcfg h
    rw [(mkClient_ok_fields cfg env c h).2.1, hcfg]
    rfl
  · intro cfg env c hcfg h
    rw [(mkClient_ok_fields cfg env c h).2.2.1, hcfg]
    rfl
  · intro cfg env c hcfg h
    rw [(mkClient_ok_fields cfg env c h).2.2.2.1, hcfg]
    rfl
  · intro cfg env c hcfg h
    rw [(mkClient_ok_fields cfg env c h).2.2.2.2.1, hcfg]
    rfl
  · intro cfg env c s hcfg h henv
    rw [(mkClient_ok_fields cfg env c h).1, hcfg, henv]
    rfl
  · intro c now
    rfl
  · intro c now ak hak hne
    have hk : truthy (some ak) = true := by simp [truthy, hne]
    have hb : truthy (some "") = false := by simp [truthy]
    simp [ApiClient.setBearerToken, ApiClient.getAuthHeaders, hb, hak, hk]

/-- The environment of the C10 witness: only a bearer token is set. -/
def envBearer : String → Option String :=
  fun k => if k == "ENTROLYTICS_BEARER_TOKEN" then some "ENVB" else none

/-- The config of the C10 witness: explicit empty-string bearer token. -/
def cfgEmptyBearer : ClientConfig :=
  { endpoint := some "https://api.example.com", bearerToken := some "" }

/-- The client `mkClient` builds from `cfgEmptyBearer` and `envBearer`. -/
def cEnvBearer : ApiClient :=
  { endpoint := "https://api.example.com", bearerToken := some "ENVB",
    apiKey := none, userId := none, secret := none, retries := 3,
    retryDelay := 1000 }

/-- Witness for C10: empty endpoint with no fallback errors; an explicit
`""` bearer token falls back to the environment value; `setBearerToken ""`
shifts a fully-credentialed client to its API key. -/
theorem c10_empty_string_treated_absent_witness :
    mkClient { endpoint := some "" } envNone = Except.error endpointRequiredMsg ∧
    (mkClient cfgEmptyBearer envBearer = Except.ok cEnvBearer ∧
     cEnvBearer.bearerToken = envBearer "ENTROLYTICS_BEARER_TOKEN") ∧
    (cAllCreds.setBearerToken "").getAuthHeaders 0 =
      [("x-entrolytics-api-key", "K")] :=
  ⟨c10_empty_string_treated_absent.1 envNone rfl,
   ⟨rfl, c10_empty_string_treated_absent.2.1 cfgEmptyBearer envBearer cEnvBearer
      rfl rfl⟩,
   c10_empty_string_treated_absent.2.2.2.2.2.2.2 cAllCreds 0 "K" rfl (by decide)⟩

end Entrolytics
